import Mathlib

/-!
Shallow embedding of the magda authorization-decision → SQL compiler
(`au.csiro.data61.magda.model.Auth`, provided as `src/unnamed/part_002`).

JSON values are modelled by an inductive `JsValue` (spray-json's `JsValue`);
`BigDecimal` numbers are modelled by `ℚ` (only zero-tests and structural
equality are relied on).  Scala string operations (`startsWith`, `substring`,
`endsWith`, `split("\\.")`, `isEmpty`) are translated to character-list
operations so that every definition evaluates inside the kernel.

Exceptions thrown by the Scala code are modelled by `Except ConversionError`,
with one error constructor per distinct throw site (plus `operatorMissing`
for the `Option.get` crash on an absent operator).
-/

namespace MagdaAuth

/-- spray-json `JsValue` (the subset of structure the compiler inspects). -/
inductive JsValue where
  | JsNull : JsValue
  | JsBool (b : Bool) : JsValue
  | JsString (s : String) : JsValue
  | JsNumber (n : ℚ) : JsValue
  | JsArray (elements : List JsValue) : JsValue
  | JsObject (fields : List (String × JsValue)) : JsValue

/-- Scala `s.startsWith(p)`. -/
def strStarts (s p : String) : Bool := p.data.isPrefixOf s.data

/-- Scala `s.endsWith(p)`. -/
def strEnds (s p : String) : Bool := p.data.isSuffixOf s.data

/-- Scala `s.substring(n)` (drop the first `n` characters). -/
def strDrop (s : String) (n : Nat) : String := String.mk (s.data.drop n)

/-- Scala `s.length`. -/
def strLen (s : String) : Nat := s.data.length

/-- Scala `s.isEmpty`. -/
def strIsEmpty (s : String) : Bool := s.data.isEmpty

def splitDotAux : List Char → List Char → List String
  | [], acc => [String.mk acc.reverse]
  | c :: cs, acc =>
    if c = '.' then String.mk acc.reverse :: splitDotAux cs []
    else splitDotAux cs (c :: acc)

/-- Scala `s.split("\\.")` up to empty segments: the Scala call drops trailing
empty segments, but every use site immediately filters out all empty
segments, so the composition `refParts` below is faithful. -/
def splitDot (s : String) : List String := splitDotAux s.data []

/-- `ref.split("\\.").filter(_ != "")` from `extractAspectIdAndPath`. -/
def refParts (s : String) : List String := (splitDot s).filter (fun x => x ≠ "")

/-- `Auth.isTrueEquivalent` (src/unnamed/part_002 lines 41–50). -/
def isTrueEquivalent : JsValue → Bool
  | .JsBool false => false
  | .JsNull => false
  | .JsString str => !strIsEmpty str
  | .JsNumber v => v != 0
  | .JsArray v => v.length != 0
  | _ => true

/-- One constructor per distinct `throw` site of the compiler (the Scala code
throws `Error` with distinct messages; the spec names the corresponding error
kinds). `operatorMissing` models the `NoSuchElementException` raised by
`operator.get` when the operator is absent. -/
inductive ConversionError where
  | nonRefToRefString : ConversionError
  | refValueNotString : ConversionError
  | refToAspectQueryValue : ConversionError
  | unsupportedValueType : ConversionError
  | unsupportedOperator : ConversionError
  | unsupportedExpressionShapeBothRefs : ConversionError
  | unsupportedExpressionShapeBothValues : ConversionError
  | unsupportedOperatorForCollection : ConversionError
  | operatorMissing : ConversionError
  | tooManyOperands : ConversionError
deriving DecidableEq

/-- Typed literal values (`AspectQueryStringValue` / `AspectQueryBooleanValue`
/ `AspectQueryBigDecimalValue`); the class definitions live outside the
provided sources but their constructor calls appear in `toAspectQueryValue`. -/
inductive AspectQueryValue where
  | AspectQueryStringValue (s : String) : AspectQueryValue
  | AspectQueryBooleanValue (b : Bool) : AspectQueryValue
  | AspectQueryBigDecimalValue (n : ℚ) : AspectQueryValue
deriving DecidableEq

/-- Modelled from the spec: scalikejdbc's `SQLSyntax` (a third-party library
type, not among the provided sources) carries a SQL text fragment; parameter
binding is not needed by the theorems below, so only the text is modelled. -/
structure SqlFragment where
  value : String
deriving DecidableEq

/-- The `AspectQuery` predicate variants.  The class definitions live in a
file not among the provided sources; the constructors and their argument
lists are modelled from the spec's data model (§3) and from the construction
sites in `ConciseExpression.toAspectQuery` / `AuthDecision.toAspectQueryGroups`. -/
inductive AspectQuery where
  | AspectQueryTrue : AspectQuery
  | AspectQueryFalse : AspectQuery
  | AspectQueryExists (aspectId : String) (path : List String)
      (negated : Bool) : AspectQuery
  | AspectQueryArrayNotEmpty (aspectId : String) (path : List String)
      (negated : Bool) : AspectQuery
  | AspectQueryValueInArray (aspectId : String) (path : List String)
      (value : AspectQueryValue) (negated : Bool) : AspectQuery
  | AspectQueryWithValue (aspectId : String) (path : List String)
      (value : AspectQueryValue) (operator : SqlFragment)
      (negated : Bool) (placeReferenceFirst : Bool) : AspectQuery
deriving DecidableEq

/-- `AspectQueryGroup` (spec §3 `PredicateGroup`).  The case-class definition
is not among the provided sources; modelled from the spec.  The construction
`AspectQueryGroup(queries = ...)` in `toAspectQueryGroups` relies on the case
class defaults, modelled as `joinWithAnd = true` (§4.4) and `negated = false`. -/
structure AspectQueryGroup where
  queries : List AspectQuery
  joinWithAnd : Bool
  negated : Bool
deriving DecidableEq

/-- `ConciseOperand` (src/unnamed/part_002 lines 57–60). -/
structure ConciseOperand where
  isRef : Bool
  value : JsValue

/-- `ConciseOperand.refString` (lines 62–73). -/
def ConciseOperand.refString (o : ConciseOperand) : Except ConversionError String :=
  if !o.isRef then .error .nonRefToRefString
  else
    match o.value with
    | .JsString v => .ok v
    | _ => .error .refValueNotString

/-- Insertion into the `SortedSet` ordered by descending string length
(`Ordering.by[String, Int](_.length)(Ordering.Int.reverse)`).  Two strings of
equal length compare as equal under this ordering, so inserting a string whose
length is already present replaces the stored string of that length with the
new one (scala immutable `TreeSet` insertion, `RedBlackTree.upd` with
`overwrite = false`, still rewrites the node when the keys are ordering-equal
but not `==` — the SI-5986 behavior); either way only one prefix per length
survives. -/
def insertByLen : List String → String → List String
  | [], p => [p]
  | q :: rest, p =>
    if strLen q < strLen p then p :: q :: rest
    else if strLen q = strLen p then p :: rest
    else q :: insertByLen rest p

/-- The `SortedSet.empty(...) ++ prefixes` of `refStringWithoutPrefixes`:
the argument list is the iteration order of the Scala `Set[String]`. -/
def sortedByLenDesc (l : List String) : List String := l.foldl insertByLen []

/-- One step of the stripping fold in `refStringWithoutPrefixes`. -/
def stripLeading (ref p : String) : String :=
  if strStarts ref p then strDrop ref (strLen p) else ref

/-- `ConciseOperand.refStringWithoutPrefixes` (lines 75–91).  The Scala
`Set[String]` argument is modelled as the list of its elements in iteration
order (a Scala set iterates deterministically, but equal sets built in
different orders may iterate differently). -/
def ConciseOperand.refStringWithoutPrefixes (o : ConciseOperand)
    (prefixes : List String) : Except ConversionError String :=
  (o.refString).map (fun ref => (sortedByLenDesc prefixes).foldl stripLeading ref)

/-- `ConciseOperand.isCollectionRef` (line 93). -/
def ConciseOperand.isCollectionRef (o : ConciseOperand) : Except ConversionError Bool :=
  (o.refString).map (fun r => strEnds r "[_]")

/-- `replaceFirst("^\\.", "")`: the regex is anchored, so exactly one leading
`.` is removed when present. -/
def dropLeadingDot (s : String) : String :=
  if strStarts s "." then strDrop s 1 else s

/-- `ConciseOperand.extractAspectIdAndPath` (lines 95–118).
`parts.slice(1, until)` is `(parts.drop 1).take (until - 1)`. -/
def ConciseOperand.extractAspectIdAndPath (o : ConciseOperand)
    (prefixes : List String) : Except ConversionError (String × List String × Bool) := do
  let cleaned := dropLeadingDot (← o.refStringWithoutPrefixes prefixes)
  let parts := refParts cleaned
  if parts.length < 2 then
    pure (cleaned, [], false)
  else
    let isCollection := strEnds (parts.getLastD "") "[_]"
    pure (parts.headD "",
      (parts.drop 1).take
        (if isCollection then parts.length - 2 else parts.length - 1),
      isCollection)

/-- `ConciseOperand.toAspectQueryValue` (lines 120–135). -/
def ConciseOperand.toAspectQueryValue (o : ConciseOperand) :
    Except ConversionError AspectQueryValue :=
  if o.isRef then .error .refToAspectQueryValue
  else
    match o.value with
    | .JsString s => .ok (.AspectQueryStringValue s)
    | .JsBool b => .ok (.AspectQueryBooleanValue b)
    | .JsNumber n => .ok (.AspectQueryBigDecimalValue n)
    | _ => .error .unsupportedValueType

/-- `ConciseExpression` (lines 139–143); the operand `Vector` is a `List`. -/
structure ConciseExpression where
  negated : Bool
  operator : Option String
  operands : List ConciseOperand

/-- `ConciseExpression.toSqlOperator` (lines 145–157); it does not read `this`. -/
def toSqlOperator (regoOperator : String) : Except ConversionError SqlFragment :=
  if regoOperator = "=" then .ok ⟨"="⟩
  else if regoOperator = ">" then .ok ⟨">"⟩
  else if regoOperator = "<" then .ok ⟨"<"⟩
  else if regoOperator = ">=" then .ok ⟨">="⟩
  else if regoOperator = "<=" then .ok ⟨"<="⟩
  else .error .unsupportedOperator

/-- Scala `Option.get` on the expression operator (throws on `None`). -/
def getExprOperator : Option String → Except ConversionError String
  | some s => .ok s
  | none => .error .operatorMissing

/-- `ConciseExpression.toAspectQuery` (lines 159–219).  The Scala
`operands.find(_.isRef)` / `operands.find(!_.isRef)` pair becomes two
`List.find?` calls; `valOperand.isEmpty` (both operands references) is
checked before `refOperand.isEmpty` (both operands literals), matching the
source order; argument evaluation order inside the constructor calls
(value conversion before operator lookup in the `WithValue` branch, operator
lookup first in the collection branch) is preserved. -/
def ConciseExpression.toAspectQuery (e : ConciseExpression)
    (prefixes : List String) : Except ConversionError AspectQuery :=
  match e.operands with
  | [o] => do
    let (aspectId, path, isCollection) ← o.extractAspectIdAndPath prefixes
    if isCollection then
      pure (.AspectQueryArrayNotEmpty aspectId path e.negated)
    else
      pure (.AspectQueryExists aspectId path e.negated)
  | [o1, o2] =>
    match [o1, o2].find? (fun o => !o.isRef), [o1, o2].find? (fun o => o.isRef) with
    | none, _ => .error .unsupportedExpressionShapeBothRefs
    | some _, none => .error .unsupportedExpressionShapeBothValues
    | some valOperand, some refOperand => do
      let (aspectId, path, isCollection) ← refOperand.extractAspectIdAndPath prefixes
      if isCollection then do
        let op ← getExprOperator e.operator
        if op ≠ "=" then .error .unsupportedOperatorForCollection
        else do
          let v ← valOperand.toAspectQueryValue
          pure (.AspectQueryValueInArray aspectId path v e.negated)
      else do
        let v ← valOperand.toAspectQueryValue
        let op ← getExprOperator e.operator
        let sqlOp ← toSqlOperator op
        pure (.AspectQueryWithValue aspectId path v sqlOp e.negated o1.isRef)
  | _ => .error .tooManyOperands

/-- `ConciseRule` (lines 222–228). -/
structure ConciseRule where
  isDefault : Bool
  value : JsValue
  fullName : String
  name : String
  expressions : List ConciseExpression

/-- `ConciseRule.toAspectQueryGroup` (lines 230–237); a thrown exception in
any expression aborts the whole rule, hence `mapM`. -/
def ConciseRule.toAspectQueryGroup (r : ConciseRule) (prefixes : List String) :
    Except ConversionError AspectQueryGroup :=
  (r.expressions.mapM (fun e => ConciseExpression.toAspectQuery e prefixes)).map
    (fun qs => { queries := qs, joinWithAnd := true,
                 negated := !isTrueEquivalent r.value })

/-- `AuthDecision` (lines 239–246). -/
structure AuthDecision where
  hasResidualRules : Bool
  result : Option JsValue
  residualRules : Option (List ConciseRule)
  hasWarns : Bool
  warns : Option (List String)
  unknowns : Option (List String)

/-- `AuthDecision.toAspectQueryGroups` (lines 248–262);
`residualRules.toList.flatten` is `residualRules.getD []`. -/
def AuthDecision.toAspectQueryGroups (d : AuthDecision) (prefixes : List String) :
    Except ConversionError (List AspectQueryGroup) :=
  if d.hasResidualRules then
    (d.residualRules.getD []).mapM (fun r => r.toAspectQueryGroup prefixes)
  else if isTrueEquivalent (d.result.getD (.JsBool false)) then
    .ok [{ queries := [.AspectQueryTrue], joinWithAnd := true, negated := false }]
  else
    .ok [{ queries := [.AspectQueryFalse], joinWithAnd := true, negated := false }]

/-- Modelled from the spec (§4.6): negation wrapping of an emitted fragment. -/
def wrapNot (negated : Bool) (s : SqlFragment) : SqlFragment :=
  if negated then ⟨"not (" ++ s.value ++ ")"⟩ else s

/-- Modelled from the spec (§4.6): per-variant SQL rendering.  The emitter
(`AspectQuery.toSql` of the surrounding project) is not among the provided
sources; only the `True` → literal `TRUE` / `False` → literal `FALSE`
renderings are relied on by the theorems below, the remaining variants render
schematic EXISTS-style probes as the spec describes. -/
def AspectQuery.toSqlFrag (recordIdSqlRef tenantIdSqlRef : String) :
    AspectQuery → SqlFragment
  | .AspectQueryTrue => ⟨"true"⟩
  | .AspectQueryFalse => ⟨"false"⟩
  | .AspectQueryExists aspectId path negated =>
    wrapNot negated
      ⟨"exists (select 1 from recordaspects where recordid = " ++ recordIdSqlRef ++
        " and tenantid = " ++ tenantIdSqlRef ++ " and aspectid = ? and data #> ? is not null)" ++
        " /* " ++ aspectId ++ " " ++ String.intercalate "," path ++ " */"⟩
  | .AspectQueryArrayNotEmpty aspectId path negated =>
    wrapNot negated
      ⟨"exists (select 1 from recordaspects where recordid = " ++ recordIdSqlRef ++
        " and tenantid = " ++ tenantIdSqlRef ++ " and aspectid = ? and jsonb_array_length(data #> ?) > 0)" ++
        " /* " ++ aspectId ++ " " ++ String.intercalate "," path ++ " */"⟩
  | .AspectQueryValueInArray aspectId path _ negated =>
    wrapNot negated
      ⟨"exists (select 1 from recordaspects where recordid = " ++ recordIdSqlRef ++
        " and tenantid = " ++ tenantIdSqlRef ++ " and aspectid = ? and (data #> ?) @> ?)" ++
        " /* " ++ aspectId ++ " " ++ String.intercalate "," path ++ " */"⟩
  | .AspectQueryWithValue aspectId path _ operator negated placeReferenceFirst =>
    wrapNot negated
      ⟨"exists (select 1 from recordaspects where recordid = " ++ recordIdSqlRef ++
        " and tenantid = " ++ tenantIdSqlRef ++ " and aspectid = ? and " ++
        (if placeReferenceFirst then "(data #>> ?) " ++ operator.value ++ " ?"
         else "? " ++ operator.value ++ " (data #>> ?)") ++ ")" ++
        " /* " ++ aspectId ++ " " ++ String.intercalate "," path ++ " */"⟩

/-- Modelled from the spec (§4.6): a `PredicateGroup` renders as its
predicates joined with AND (OR when `joinWithAnd` is false), wrapped in NOT
when negated; a group with no predicate renders no condition. -/
def AspectQueryGroup.toSql (g : AspectQueryGroup)
    (recordIdSqlRef tenantIdSqlRef : String) : Option SqlFragment :=
  match g.queries.map (AspectQuery.toSqlFrag recordIdSqlRef tenantIdSqlRef) with
  | [] => none
  | f :: fs =>
    some (wrapNot g.negated
      (fs.foldl
        (fun a b =>
          ⟨a.value ++ (if g.joinWithAnd then " and " else " or ") ++ b.value⟩)
        f))

/-- Modelled from scalikejdbc's `SQLSyntax.toOrConditionOpt` (library
dependency, not part of these sources): the defined conditions are joined
with OR; when none is defined the result is `none`. -/
def toOrConditionOpt (conditions : List (Option SqlFragment)) : Option SqlFragment :=
  match conditions.filterMap id with
  | [] => none
  | f :: fs => some (fs.foldl (fun a b => ⟨a.value ++ " or " ++ b.value⟩) f)

/-- Modelled from scalikejdbc's `SQLSyntax.roundBracket`. -/
def roundBracket (s : SqlFragment) : SqlFragment := ⟨"(" ++ s.value ++ ")"⟩

/-- `AuthDecision.toSql` (lines 264–276).  The Scala default arguments are
`prefixes = Set("object.record")`, `recordIdSqlRef = "records.recordid"`,
`tenantIdSqlRef = "records.tenantid"`; they are passed explicitly here. -/
def AuthDecision.toSql (d : AuthDecision) (prefixes : List String)
    (recordIdSqlRef tenantIdSqlRef : String) :
    Except ConversionError (Option SqlFragment) :=
  (d.toAspectQueryGroups prefixes).map (fun groups =>
    (toOrConditionOpt
        (groups.map (fun g => g.toSql recordIdSqlRef tenantIdSqlRef))).map
      roundBracket)

/-- `Auth.UnconditionalTrueDecision` (lines 279–280). -/
def UnconditionalTrueDecision : AuthDecision :=
  ⟨false, some (.JsBool true), none, false, none, none⟩

/-- `Auth.UnconditionalFalseDecision` (lines 282–283). -/
def UnconditionalFalseDecision : AuthDecision :=
  ⟨false, some (.JsBool false), none, false, none, none⟩

/-- The reference-resolution rule in the form the amended claim C4 states it:
fewer than 2 segments yield the whole cleaned string as the identifier with an
empty path and collection flag false; otherwise the first segment is the
aspect id, a trailing `[_]` marker on the last segment sets the collection
flag and the entire last segment (not just the marker) is excluded from the
path, the remaining segments (excluding the first) forming the path in order. -/
def resolveRefSpec (cleaned : String) : String × List String × Bool :=
  let parts := refParts cleaned
  if parts.length < 2 then (cleaned, [], false)
  else
    let isCollection := strEnds (parts.getLastD "") "[_]"
    (parts.headD "",
     if isCollection then parts.tail.dropLast else parts.tail,
     isCollection)

/-- C3: for every `AuthDecision` with `hasResidualRules = false`, compilation
never fails: if `result` (defaulting to false when absent) is truthy the
output is exactly one group containing one `True` predicate, otherwise
exactly one group containing one `False` predicate. -/
theorem unconditional_decision_single_group (result : Option JsValue)
    (residualRules : Option (List ConciseRule)) (hasWarns : Bool)
    (warns unknowns : Option (List String)) (prefixes : List String) :
    AuthDecision.toAspectQueryGroups
        ⟨false, result, residualRules, hasWarns, warns, unknowns⟩ prefixes =
      .ok [⟨[if isTrueEquivalent (result.getD (.JsBool false)) then
               .AspectQueryTrue else .AspectQueryFalse], true, false⟩] := by
  by_cases h : isTrueEquivalent (result.getD (.JsBool false)) <;>
    simp [AuthDecision.toAspectQueryGroups, h]

/-- C10: for every `AuthDecision` with `hasResidualRules = true` but
`residualRules` absent, compilation does not fail: it produces the empty list
of predicate groups, and `toSql` returns no SQL condition at all (`none`). -/
theorem absent_residualRules_no_sql_condition (result : Option JsValue)
    (hasWarns : Bool) (warns unknowns : Option (List String))
    (prefixes : List String) (recordIdSqlRef tenantIdSqlRef : String) :
    AuthDecision.toAspectQueryGroups
        ⟨true, result, none, hasWarns, warns, unknowns⟩ prefixes = .ok [] ∧
    AuthDecision.toSql ⟨true, result, none, hasWarns, warns, unknowns⟩
        prefixes recordIdSqlRef tenantIdSqlRef = .ok none :=
  ⟨rfl, rfl⟩

/-- C1 (counterexample): for the decision with `hasResidualRules = true` and
an empty residual-rule list, the compiled group list is empty, but the
emitted SQL condition is `none` — not the literal `FALSE` that the
unconditionally-false decision emits. -/
theorem emptyResidualRules_toSql_not_false :
    AuthDecision.toAspectQueryGroups ⟨true, none, some [], false, none, none⟩
        ["object.record"] = .ok [] ∧
    AuthDecision.toSql ⟨true, none, some [], false, none, none⟩
        ["object.record"] "records.recordid" "records.tenantid" = .ok none ∧
    AuthDecision.toSql ⟨true, none, some [], false, none, none⟩
        ["object.record"] "records.recordid" "records.tenantid" ≠
      AuthDecision.toSql UnconditionalFalseDecision
        ["object.record"] "records.recordid" "records.tenantid" := by
  refine ⟨rfl, rfl, ?_⟩
  have h1 : AuthDecision.toSql ⟨true, none, some [], false, none, none⟩
      ["object.record"] "records.recordid" "records.tenantid" =
      .ok none := rfl
  have h2 : AuthDecision.toSql UnconditionalFalseDecision
      ["object.record"] "records.recordid" "records.tenantid" =
      .ok (some ⟨"(false)"⟩) := rfl
  rw [h1, h2]
  simp

/-- C1 (amended): for every `AuthDecision` with `hasResidualRules = true` and
an empty residual-rule list, compiling yields an empty list of predicate
groups, and `toSql` emits no SQL condition at all (`none`) rather than the
fail-closed literal `FALSE`. -/
theorem emptyResidualRules_no_sql_condition (result : Option JsValue)
    (hasWarns : Bool) (warns unknowns : Option (List String))
    (prefixes : List String) (recordIdSqlRef tenantIdSqlRef : String) :
    AuthDecision.toAspectQueryGroups
        ⟨true, result, some [], hasWarns, warns, unknowns⟩ prefixes = .ok [] ∧
    AuthDecision.toSql ⟨true, result, some [], hasWarns, warns, unknowns⟩
        prefixes recordIdSqlRef tenantIdSqlRef = .ok none :=
  ⟨rfl, rfl⟩

/-- C2: every `ConciseRule` compiles to the group whose queries are its
expressions compiled in order, whose `joinWithAnd` is true and whose
`negated` flag is the negation of the truthiness of the rule's value; and
truthiness over JSON values holds exactly for values other than `false`,
`null`, the empty string, zero, and the empty array (in particular every
object is truthy). -/
theorem rule_group_compilation_and_truthiness :
    (∀ (r : ConciseRule) (prefixes : List String),
      r.toAspectQueryGroup prefixes =
        (r.expressions.mapM
            (fun e => ConciseExpression.toAspectQuery e prefixes)).map
          (fun qs => ⟨qs, true, !isTrueEquivalent r.value⟩)) ∧
    (∀ v : JsValue, isTrueEquivalent v = false ↔
      (v = .JsBool false ∨ v = .JsNull ∨ v = .JsString "" ∨
       v = .JsNumber 0 ∨ v = .JsArray [])) := by
  constructor
  · intro r prefixes
    rfl
  · intro v
    cases v with
    | JsNull => simp [isTrueEquivalent]
    | JsBool b => cases b <;> simp [isTrueEquivalent]
    | JsString s =>
      obtain ⟨data⟩ := s
      simp [isTrueEquivalent, strIsEmpty, String.ext_iff]
    | JsNumber n => simp [isTrueEquivalent, bne]
    | JsArray l => simp [isTrueEquivalent, List.length_eq_zero, bne]
    | JsObject f => simp [isTrueEquivalent]

/-- C4 (counterexample): for the reference `"x.y.z[_]"` with no prefixes, the
resolver excludes the entire last segment `z[_]` from the path (yielding path
`["y"]`), not merely the `[_]` suffix (which would yield `["y", "z"]`). -/
theorem collection_marker_drops_whole_segment_cex :
    ConciseOperand.extractAspectIdAndPath ⟨true, .JsString "x.y.z[_]"⟩ [] =
      .ok ("x", ["y"], true) ∧
    ConciseOperand.extractAspectIdAndPath ⟨true, .JsString "x.y.z[_]"⟩ [] ≠
      .ok ("x", ["y", "z"], true) := by
  refine ⟨rfl, ?_⟩
  have h : ConciseOperand.extractAspectIdAndPath ⟨true, .JsString "x.y.z[_]"⟩ [] =
      .ok ("x", ["y"], true) := rfl
  rw [h]
  simp

/-- C4 (amended): for every reference, after prefix stripping,
leading-separator removal, and splitting on `.` discarding empty segments,
the resolver behaves exactly as `resolveRefSpec` describes: fewer than 2
segments return the whole cleaned string with empty path and collection flag
false; otherwise the first segment is the aspect id, a trailing `[_]` marker
on the last segment sets the collection flag and the entire last segment is
excluded from the path, the remaining segments forming the path in order. -/
theorem extractAspectIdAndPath_follows_spec (o : ConciseOperand)
    (prefixes : List String) :
    o.extractAspectIdAndPath prefixes =
      (o.refStringWithoutPrefixes prefixes).map
        (fun r => resolveRefSpec (dropLeadingDot r)) := by
  unfold ConciseOperand.extractAspectIdAndPath resolveRefSpec
  cases h : o.refStringWithoutPrefixes prefixes with
  | error e => simp [Except.map, bind, Except.bind]
  | ok r =>
    simp only [Except.map, bind, Except.bind]
    by_cases hlen : (refParts (dropLeadingDot r)).length < 2
    · simp [hlen, pure, Except.pure]
    · simp only [hlen, if_false, pure, Except.pure, Except.ok.injEq,
        Prod.mk.injEq]
      refine ⟨trivial, ?_, trivial⟩
      set parts := refParts (dropLeadingDot r) with hp
      cases hc : strEnds (parts.getLastD "") "[_]" with
      | true =>
        simp only [hc, if_true]
        rw [List.dropLast_eq_take, List.drop_one, List.length_tail]
        congr 1
      | false =>
        simp only [hc, Bool.false_eq_true, if_false, List.drop_one]
        apply List.take_of_length_le
        rw [List.length_tail]

/-- C5 (counterexample): two orderings of the same two-element prefix set
`{"aa", "bb"}` give different results on the reference `"aabb.x"`, because
the length-keyed sorted set keeps only one prefix per length (the most
recently inserted): iteration order `["aa", "bb"]` retains `"bb"` and strips
nothing, iteration order `["bb", "aa"]` retains `"aa"` and strips only it.
In particular neither result is `".x"`, the result of removing every
matching prefix. -/
theorem equal_length_prefixes_nondeterminism_cex :
    ConciseOperand.refStringWithoutPrefixes ⟨true, .JsString "aabb.x"⟩
        ["aa", "bb"] = .ok "aabb.x" ∧
    ConciseOperand.refStringWithoutPrefixes ⟨true, .JsString "aabb.x"⟩
        ["bb", "aa"] = .ok "bb.x" ∧
    ConciseOperand.refStringWithoutPrefixes ⟨true, .JsString "aabb.x"⟩
        ["aa", "bb"] ≠
      ConciseOperand.refStringWithoutPrefixes ⟨true, .JsString "aabb.x"⟩
        ["bb", "aa"] := by
  refine ⟨rfl, rfl, ?_⟩
  have h1 : ConciseOperand.refStringWithoutPrefixes ⟨true, .JsString "aabb.x"⟩
      ["aa", "bb"] = .ok "aabb.x" := rfl
  have h2 : ConciseOperand.refStringWithoutPrefixes ⟨true, .JsString "aabb.x"⟩
      ["bb", "aa"] = .ok "bb.x" := rfl
  rw [h1, h2]
  simp

lemma insertByLen_perm (acc : List String) (p : String)
    (h : ∀ q ∈ acc, strLen q ≠ strLen p) :
    (insertByLen acc p).Perm (p :: acc) := by
  induction acc with
  | nil => simp [insertByLen]
  | cons q rest ih =>
    have hq : strLen q ≠ strLen p := h q (by simp)
    by_cases h1 : strLen q < strLen p
    · simp [insertByLen, h1]
    · simp only [insertByLen, if_neg h1, if_neg hq]
      exact ((ih (fun x hx => h x (by simp [hx]))).cons q).trans
        (List.Perm.swap p q rest)

lemma insertByLen_pairwise (acc : List String) (p : String)
    (hs : acc.Pairwise (fun a b => strLen b < strLen a))
    (h : ∀ q ∈ acc, strLen q ≠ strLen p) :
    (insertByLen acc p).Pairwise (fun a b => strLen b < strLen a) := by
  induction acc with
  | nil => simp [insertByLen]
  | cons q rest ih =>
    obtain ⟨hq_all, hrest⟩ := List.pairwise_cons.mp hs
    have hq : strLen q ≠ strLen p := h q (by simp)
    by_cases h1 : strLen q < strLen p
    · simp only [insertByLen, if_pos h1]
      refine List.pairwise_cons.mpr ⟨?_, hs⟩
      intro x hx
      rcases List.mem_cons.mp hx with rfl | hx'
      · exact h1
      · exact (hq_all x hx').trans h1
    · simp only [insertByLen, if_neg h1, if_neg hq]
      have hrec := ih hrest (fun x hx => h x (by simp [hx]))
      refine List.pairwise_cons.mpr ⟨?_, hrec⟩
      intro x hx
      rcases List.mem_cons.mp
          ((insertByLen_perm rest p
            (fun x hx => h x (by simp [hx]))).mem_iff.mp hx) with rfl | hx'
      · exact Nat.lt_of_le_of_ne (Nat.le_of_not_lt h1) (Ne.symm hq)
      · exact hq_all x hx'

lemma foldl_insertByLen (l : List String) : ∀ acc : List String,
    acc.Pairwise (fun a b => strLen b < strLen a) →
    (∀ p ∈ l, ∀ q ∈ acc, strLen q ≠ strLen p) →
    l.Pairwise (fun a b => strLen a ≠ strLen b) →
    (l.foldl insertByLen acc).Perm (l ++ acc) ∧
      (l.foldl insertByLen acc).Pairwise (fun a b => strLen b < strLen a) := by
  induction l with
  | nil => intro acc hacc _ _; exact ⟨List.Perm.refl acc, hacc⟩
  | cons p rest ih =>
    intro acc hacc hcross hl
    have hcur : ∀ q ∈ acc, strLen q ≠ strLen p := hcross p (by simp)
    have hperm1 := insertByLen_perm acc p hcur
    have hpair1 := insertByLen_pairwise acc p hacc hcur
    obtain ⟨hl_head, hl_tail⟩ := List.pairwise_cons.mp hl
    have hcross' : ∀ x ∈ rest, ∀ q ∈ insertByLen acc p,
        strLen q ≠ strLen x := by
      intro x hx q hq
      rcases List.mem_cons.mp (hperm1.mem_iff.mp hq) with rfl | hq'
      · exact hl_head x hx
      · exact hcross x (List.mem_cons_of_mem p hx) q hq'
    obtain ⟨hperm2, hpair2⟩ := ih (insertByLen acc p) hpair1 hcross' hl_tail
    exact ⟨hperm2.trans
      ((List.Perm.append_left rest hperm1).trans List.perm_middle), hpair2⟩

lemma sortedByLenDesc_spec (l : List String)
    (hl : l.Pairwise (fun a b => strLen a ≠ strLen b)) :
    (sortedByLenDesc l).Perm l ∧
      (sortedByLenDesc l).Pairwise (fun a b => strLen b < strLen a) := by
  have h := foldl_insertByLen l [] (by simp) (by simp) hl
  simpa [sortedByLenDesc] using h

lemma sortedByLenDesc_perm_invariant (l₁ l₂ : List String)
    (hl : l₁.Pairwise (fun a b => strLen a ≠ strLen b))
    (hperm : l₁.Perm l₂) :
    sortedByLenDesc l₁ = sortedByLenDesc l₂ := by
  have hl₂ : l₂.Pairwise (fun a b => strLen a ≠ strLen b) :=
    (hperm.pairwise_iff (fun {_ _} h => Ne.symm h)).mp hl
  obtain ⟨hp₁, hs₁⟩ := sortedByLenDesc_spec l₁ hl
  obtain ⟨hp₂, hs₂⟩ := sortedByLenDesc_spec l₂ hl₂
  haveI : IsAntisymm String (fun a b => strLen b < strLen a) :=
    ⟨fun _ _ h1 h2 => absurd (h1.trans h2) (Nat.lt_irrefl _)⟩
  exact List.eq_of_perm_of_sorted (hp₁.trans (hperm.trans hp₂.symm)) hs₁ hs₂

/-- C5 (amended): when all prefixes in the set have pairwise distinct
lengths, prefix stripping is deterministic — any two orderings of the set
give the same result — and the stripping fold tries exactly the prefixes of
the set, in strictly descending length order (longer prefixes first),
removing each that occurs as a leading substring of the successively
stripped reference.  (With two prefixes of equal length the sorted set drops
one of them and the result depends on the set's iteration order, as the
counterexample shows.) -/
theorem distinct_length_prefix_stripping_deterministic (o : ConciseOperand)
    (l₁ l₂ : List String)
    (hdist : l₁.Pairwise (fun a b => strLen a ≠ strLen b))
    (hperm : l₁.Perm l₂) :
    o.refStringWithoutPrefixes l₁ = o.refStringWithoutPrefixes l₂ ∧
    (sortedByLenDesc l₁).Perm l₁ ∧
    (sortedByLenDesc l₁).Pairwise (fun a b => strLen b < strLen a) := by
  obtain ⟨hp, hs⟩ := sortedByLenDesc_spec l₁ hdist
  refine ⟨?_, hp, hs⟩
  unfold ConciseOperand.refStringWithoutPrefixes
  rw [sortedByLenDesc_perm_invariant l₁ l₂ hdist hperm]

/-- Witness for the amended C5 at a concrete input: the prefix lists
`["abcd", "ab"]` and `["ab", "abcd"]` (same set, distinct lengths) give the
same stripped reference. -/
theorem distinct_length_prefix_stripping_deterministic_witness :
    (["abcd", "ab"] : List String).Pairwise
        (fun a b => strLen a ≠ strLen b) ∧
    (["abcd", "ab"] : List String).Perm ["ab", "abcd"] ∧
    ConciseOperand.refStringWithoutPrefixes ⟨true, .JsString "abcd.x"⟩
        ["abcd", "ab"] =
      ConciseOperand.refStringWithoutPrefixes ⟨true, .JsString "abcd.x"⟩
        ["ab", "abcd"] :=
  ⟨by decide, by decide,
    (distinct_length_prefix_stripping_deterministic
      ⟨true, .JsString "abcd.x"⟩ ["abcd", "ab"] ["ab", "abcd"]
      (by decide) (by decide)).1⟩

lemma list_eq_pair_of_length_two {α : Type} {l : List α} (h : l.length = 2) :
    ∃ a b, l = [a, b] := by
  cases l with
  | nil => simp at h
  | cons a t =>
    cases t with
    | nil => simp at h
    | cons b t2 =>
      cases t2 with
      | nil => exact ⟨a, b, rfl⟩
      | cons c r => simp only [List.length_cons] at h; omega

lemma list_three_of_two_lt_length {α : Type} {l : List α} (h : 2 < l.length) :
    ∃ a b c r, l = a :: b :: c :: r := by
  cases l with
  | nil => simp at h
  | cons a t =>
    cases t with
    | nil => simp at h
    | cons b t2 =>
      cases t2 with
      | nil => simp only [List.length_cons, List.length_nil] at h; omega
      | cons c r => exact ⟨a, b, c, r, rfl⟩

/-- C6: a two-operand expression whose operands are both references, or both
literals, fails to compile (the two `UnsupportedExpressionShape` throw
sites), and an expression with more than two operands fails with
`TooManyOperands`; in all of these cases no predicate is produced. -/
theorem two_operand_shape_errors (e : ConciseExpression)
    (prefixes : List String) :
    (e.operands.length = 2 → (∀ o ∈ e.operands, o.isRef = true) →
      e.toAspectQuery prefixes = .error .unsupportedExpressionShapeBothRefs) ∧
    (e.operands.length = 2 → (∀ o ∈ e.operands, o.isRef = false) →
      e.toAspectQuery prefixes = .error .unsupportedExpressionShapeBothValues) ∧
    (2 < e.operands.length →
      e.toAspectQuery prefixes = .error .tooManyOperands) := by
  obtain ⟨neg, op, ops⟩ := e
  refine ⟨?_, ?_, ?_⟩
  · intro hlen hall
    obtain ⟨o1, o2, rfl⟩ := list_eq_pair_of_length_two hlen
    have h1 : o1.isRef = true := hall o1 (by simp)
    have h2 : o2.isRef = true := hall o2 (by simp)
    simp [ConciseExpression.toAspectQuery, List.find?, h1, h2]
  · intro hlen hall
    obtain ⟨o1, o2, rfl⟩ := list_eq_pair_of_length_two hlen
    have h1 : o1.isRef = false := hall o1 (by simp)
    have h2 : o2.isRef = false := hall o2 (by simp)
    simp [ConciseExpression.toAspectQuery, List.find?, h1, h2]
  · intro hlen
    obtain ⟨a, b, c, r, rfl⟩ := list_three_of_two_lt_length hlen
    rfl

/-- Witness for C6: concrete both-references, both-literals and
three-operand expressions produce the corresponding compilation errors. -/
theorem two_operand_shape_errors_witness :
    ConciseExpression.toAspectQuery
        ⟨false, some "=", [⟨true, .JsString "a.b"⟩, ⟨true, .JsString "c.d"⟩]⟩
        ["p"] = .error .unsupportedExpressionShapeBothRefs ∧
    ConciseExpression.toAspectQuery
        ⟨false, some "=", [⟨false, .JsString "u"⟩, ⟨false, .JsString "v"⟩]⟩
        ["p"] = .error .unsupportedExpressionShapeBothValues ∧
    ConciseExpression.toAspectQuery
        ⟨false, some "=", [⟨true, .JsString "a.b"⟩, ⟨false, .JsString "u"⟩,
          ⟨false, .JsString "v"⟩]⟩ ["p"] = .error .tooManyOperands :=
  ⟨(two_operand_shape_errors _ _).1 rfl (by decide),
   (two_operand_shape_errors _ _).2.1 rfl (by decide),
   (two_operand_shape_errors _ _).2.2 (by decide)⟩

/-- C7: a two-operand expression with exactly one reference operand whose
reference resolves to a collection reference compiles successfully only when
the operator is `=`, yielding `ValueInArray(aspectId, path, literalValue,
negated)`; any other operator fails with `UnsupportedOperatorForCollection`. -/
theorem collection_ref_requires_eq (e : ConciseExpression)
    (prefixes : List String) (refOperand valOperand : ConciseOperand)
    (aspectId : String) (path : List String) (op : String)
    (hlen : e.operands.length = 2)
    (hval : e.operands.find? (fun o => !o.isRef) = some valOperand)
    (href : e.operands.find? (fun o => o.isRef) = some refOperand)
    (hext : refOperand.extractAspectIdAndPath prefixes =
      .ok (aspectId, path, true))
    (hop : e.operator = some op) :
    (op = "=" → e.toAspectQuery prefixes =
      (valOperand.toAspectQueryValue).map
        (fun v => .AspectQueryValueInArray aspectId path v e.negated)) ∧
    (op ≠ "=" → e.toAspectQuery prefixes =
      .error .unsupportedOperatorForCollection) := by
  obtain ⟨neg, eop, ops⟩ := e
  dsimp only at *
  obtain ⟨o1, o2, rfl⟩ := list_eq_pair_of_length_two hlen
  subst hop
  constructor
  · intro heq
    subst heq
    cases hv : valOperand.toAspectQueryValue with
    | error err =>
      simp [ConciseExpression.toAspectQuery, hval, href, hext, hv,
        getExprOperator, bind, Except.bind, Except.map]
    | ok v =>
      simp [ConciseExpression.toAspectQuery, hval, href, hext, hv,
        getExprOperator, bind, Except.bind, pure, Except.pure, Except.map]
  · intro hne
    simp [ConciseExpression.toAspectQuery, hval, href, hext, hne,
      getExprOperator, bind, Except.bind]

/-- Witness for C7: a collection reference with `=` compiles to
`ValueInArray`; with `>` it fails with `UnsupportedOperatorForCollection`. -/
theorem collection_ref_requires_eq_witness :
    ConciseExpression.toAspectQuery
        ⟨false, some "=", [⟨true, .JsString "x.y[_]"⟩, ⟨false, .JsString "abc"⟩]⟩
        ["p"] =
      .ok (.AspectQueryValueInArray "x" [] (.AspectQueryStringValue "abc")
        false) ∧
    ConciseExpression.toAspectQuery
        ⟨false, some ">", [⟨true, .JsString "x.y[_]"⟩, ⟨false, .JsString "abc"⟩]⟩
        ["p"] = .error .unsupportedOperatorForCollection :=
  ⟨(collection_ref_requires_eq
      ⟨false, some "=", [⟨true, .JsString "x.y[_]"⟩, ⟨false, .JsString "abc"⟩]⟩
      ["p"] ⟨true, .JsString "x.y[_]"⟩
      ⟨false, .JsString "abc"⟩ "x" [] "="
      rfl rfl rfl rfl rfl).1 rfl,
   (collection_ref_requires_eq
      ⟨false, some ">", [⟨true, .JsString "x.y[_]"⟩, ⟨false, .JsString "abc"⟩]⟩
      ["p"] ⟨true, .JsString "x.y[_]"⟩
      ⟨false, .JsString "abc"⟩ "x" [] ">"
      rfl rfl rfl rfl rfl).2 (by decide)⟩

/-- C8: a one-operand expression whose operand is a (resolvable) reference
compiles to `ArrayNotEmpty(aspectId, path, negated)` when the reference is a
collection reference and to `Exists(aspectId, path, negated)` otherwise, the
expression's negated flag being carried onto the predicate. -/
theorem single_operand_ref_compilation (e : ConciseExpression)
    (prefixes : List String) (o : ConciseOperand) (aspectId : String)
    (path : List String) (isCollection : Bool)
    (hops : e.operands = [o])
    (hext : o.extractAspectIdAndPath prefixes =
      .ok (aspectId, path, isCollection)) :
    e.toAspectQuery prefixes =
      .ok (if isCollection then
             .AspectQueryArrayNotEmpty aspectId path e.negated
           else .AspectQueryExists aspectId path e.negated) := by
  obtain ⟨neg, eop, ops⟩ := e
  dsimp only at *
  subst hops
  cases isCollection with
  | true =>
    simp [ConciseExpression.toAspectQuery, hext, bind, Except.bind, pure,
      Except.pure]
  | false =>
    simp [ConciseExpression.toAspectQuery, hext, bind, Except.bind, pure,
      Except.pure]

/-- Witness for C8: a plain reference compiles to `Exists` (negated flag
carried over), a collection reference to `ArrayNotEmpty`. -/
theorem single_operand_ref_compilation_witness :
    ConciseExpression.toAspectQuery ⟨true, none, [⟨true, .JsString "asp.f"⟩]⟩
        [] = .ok (.AspectQueryExists "asp" ["f"] true) ∧
    ConciseExpression.toAspectQuery
        ⟨false, none, [⟨true, .JsString "asp.f.g[_]"⟩]⟩ [] =
      .ok (.AspectQueryArrayNotEmpty "asp" ["f"] false) :=
  ⟨single_operand_ref_compilation ⟨true, none, [⟨true, .JsString "asp.f"⟩]⟩
      [] ⟨true, .JsString "asp.f"⟩ "asp" ["f"] false rfl rfl,
   single_operand_ref_compilation
      ⟨false, none, [⟨true, .JsString "asp.f.g[_]"⟩]⟩
      [] ⟨true, .JsString "asp.f.g[_]"⟩ "asp" ["f"] true rfl rfl⟩

/-- C9: a two-operand expression with exactly one reference operand that
resolves to a non-collection reference compiles to a `WithValue` predicate
whose `placeReferenceFirst` flag is exactly `o1.isRef`, i.e. whether the
first operand of the expression is the reference, preserving operand order
for the non-symmetric comparison operators. -/
theorem withValue_preserves_reference_position (e : ConciseExpression)
    (prefixes : List String) (o1 o2 refOperand valOperand : ConciseOperand)
    (aspectId : String) (path : List String) (op : String)
    (sqlOp : SqlFragment) (v : AspectQueryValue)
    (hops : e.operands = [o1, o2])
    (hval : e.operands.find? (fun o => !o.isRef) = some valOperand)
    (href : e.operands.find? (fun o => o.isRef) = some refOperand)
    (hext : refOperand.extractAspectIdAndPath prefixes =
      .ok (aspectId, path, false))
    (hop : e.operator = some op)
    (hv : valOperand.toAspectQueryValue = .ok v)
    (hsql : toSqlOperator op = .ok sqlOp) :
    e.toAspectQuery prefixes =
      .ok (.AspectQueryWithValue aspectId path v sqlOp e.negated o1.isRef) := by
  obtain ⟨neg, eop, ops⟩ := e
  dsimp only at *
  subst hops
  subst hop
  simp [ConciseExpression.toAspectQuery, hval, href, hext, hv, hsql,
    getExprOperator, bind, Except.bind, pure, Except.pure]

/-- Witness for C9: with the reference first the compiled `WithValue` has
`placeReferenceFirst = true`; with the literal first it has
`placeReferenceFirst = false`. -/
theorem withValue_preserves_reference_position_witness :
    ConciseExpression.toAspectQuery
        ⟨false, some "=", [⟨true, .JsString "ds.owner"⟩, ⟨false, .JsString "abc"⟩]⟩
        [] =
      .ok (.AspectQueryWithValue "ds" ["owner"]
        (.AspectQueryStringValue "abc") ⟨"="⟩ false true) ∧
    ConciseExpression.toAspectQuery
        ⟨false, some "<", [⟨false, .JsNumber 3⟩, ⟨true, .JsString "ds.count"⟩]⟩
        [] =
      .ok (.AspectQueryWithValue "ds" ["count"]
        (.AspectQueryBigDecimalValue 3) ⟨"<"⟩ false false) :=
  ⟨withValue_preserves_reference_position
      ⟨false, some "=", [⟨true, .JsString "ds.owner"⟩, ⟨false, .JsString "abc"⟩]⟩
      [] ⟨true, .JsString "ds.owner"⟩
      ⟨false, .JsString "abc"⟩ ⟨true, .JsString "ds.owner"⟩
      ⟨false, .JsString "abc"⟩ "ds" ["owner"] "="
      ⟨"="⟩ (.AspectQueryStringValue "abc") rfl rfl rfl rfl rfl rfl rfl,
   withValue_preserves_reference_position
      ⟨false, some "<", [⟨false, .JsNumber 3⟩, ⟨true, .JsString "ds.count"⟩]⟩
      [] ⟨false, .JsNumber 3⟩
      ⟨true, .JsString "ds.count"⟩ ⟨true, .JsString "ds.count"⟩
      ⟨false, .JsNumber 3⟩ "ds" ["count"] "<"
      ⟨"<"⟩ (.AspectQueryBigDecimalValue 3) rfl rfl rfl rfl rfl rfl rfl⟩

end MagdaAuth
